import Mathlib

/-!
Verification of the transaction-normalization layer of the
`explain-my-transaction` repository.

The repository is TypeScript; the definitions below are a shallow embedding
of its pure normalization functions.  JavaScript strings are modelled by
Lean `String` (operating on the underlying `List Char`), JavaScript numbers
that the code only ever uses integrally are modelled by `Nat`/`Int`, and
`undefined`/missing fields are modelled by `Option`.  Each definition cites
the source file and function it embeds.
-/

namespace ExplainMyTx

/-! ### Decimal digit strings

Infrastructure for reasoning about JavaScript's decimal rendering and
parsing of integers (`String(n)`, `Number(s)` on digit-only strings).
-/

/-- Character for a single decimal digit value. -/
def digitChar (d : Nat) : Char := Char.ofNat (48 + d)

/-- Numeric value of a decimal digit character. -/
def charVal (c : Char) : Nat := c.toNat - 48

/-- Little-endian digit expansion with explicit fuel, so that the kernel can
evaluate it (no well-founded recursion). -/
def digitsAux : Nat → Nat → List Nat
  | 0, _ => []
  | fuel+1, n => if n < 10 then [n] else n % 10 :: digitsAux fuel (n / 10)

/-- Little-endian decimal digits of `n`. -/
def natDigitsRev (n : Nat) : List Nat := digitsAux (n + 1) n

/-- Decimal representation of `n` as a character list (JS `String(n)`). -/
def natReprData (n : Nat) : List Char := (natDigitsRev n).reverse.map digitChar

/-- Decimal representation of `n` (JS `String(n)` for a nonnegative integer). -/
def natRepr (n : Nat) : String := String.mk (natReprData n)

/-- Value of a little-endian digit list. -/
def valRev : List Nat → Nat
  | [] => 0
  | d :: ds => d + 10 * valRev ds

/-- Value of a big-endian decimal character list (JS `Number(s)` on an
all-digit string, which is exact for the integer ranges considered here). -/
def parseDigitsData (l : List Char) : Nat := l.foldl (fun a c => a * 10 + charVal c) 0

/-- Recognizes a decimal digit character (`[0-9]`). -/
def isDigitChar (c : Char) : Bool := 48 ≤ c.toNat && c.toNat ≤ 57

theorem charToNat_ofNat (n : Nat) (h : n < 55296) : (Char.ofNat n).toNat = n := by
  have hv : n.isValidChar := Or.inl h
  rw [Char.ofNat, dif_pos hv]
  simp [Char.ofNatAux, Char.toNat, UInt32.toNat, BitVec.toNat_ofNatLt]

theorem charVal_digitChar (d : Nat) (h : d < 10) : charVal (digitChar d) = d := by
  have : (Char.ofNat (48 + d)).toNat = 48 + d := charToNat_ofNat _ (by omega)
  simp [charVal, digitChar, this]

theorem isDigitChar_digitChar (d : Nat) (h : d < 10) : isDigitChar (digitChar d) = true := by
  have : (Char.ofNat (48 + d)).toNat = 48 + d := charToNat_ofNat _ (by omega)
  simp [isDigitChar, digitChar, this]
  omega

theorem valRev_digitsAux : ∀ fuel n, n < fuel → valRev (digitsAux fuel n) = n := by
  intro fuel
  induction fuel with
  | zero => intro n h; omega
  | succ f ih =>
    intro n h
    rw [digitsAux]
    by_cases h10 : n < 10
    · simp [h10, valRev]
    · have hd : n / 10 < f := by omega
      simp [h10, valRev, ih _ hd]
      omega

theorem valRev_natDigitsRev (n : Nat) : valRev (natDigitsRev n) = n :=
  valRev_digitsAux _ _ (Nat.lt_succ_self n)

theorem digitsAux_lt_10 : ∀ fuel n d, d ∈ digitsAux fuel n → d < 10 := by
  intro fuel
  induction fuel with
  | zero => intro n d h; simp [digitsAux] at h
  | succ f ih =>
    intro n d h
    rw [digitsAux] at h
    by_cases h10 : n < 10
    · simp [h10] at h; omega
    · simp [h10] at h
      rcases h with h | h
      · omega
      · exact ih _ _ h

theorem natDigitsRev_lt_10 (n d : Nat) (h : d ∈ natDigitsRev n) : d < 10 :=
  digitsAux_lt_10 _ _ _ h

theorem foldl_digits_rev (ds : List Nat) (hds : ∀ d ∈ ds, d < 10) (a : Nat) :
    (ds.reverse.map digitChar).foldl (fun a c => a * 10 + charVal c) a
      = a * 10 ^ ds.length + valRev ds := by
  induction ds generalizing a with
  | nil => simp [valRev]
  | cons d tl ih =>
    have hd : d < 10 := hds d (by simp)
    have htl : ∀ x ∈ tl, x < 10 := fun x hx => hds x (by simp [hx])
    simp only [List.reverse_cons, List.map_append, List.map_cons, List.map_nil,
      List.foldl_append, List.foldl_cons, List.foldl_nil]
    rw [ih htl]
    simp [valRev, charVal_digitChar d hd, List.length_cons]
    ring

theorem parseDigitsData_natReprData (n : Nat) : parseDigitsData (natReprData n) = n := by
  unfold parseDigitsData natReprData
  rw [foldl_digits_rev _ (fun d hd => natDigitsRev_lt_10 n d hd) 0]
  simp [valRev_natDigitsRev]

theorem natReprData_digits (n : Nat) : ∀ c ∈ natReprData n, isDigitChar c = true := by
  intro c hc
  simp only [natReprData, List.mem_map, List.mem_reverse] at hc
  obtain ⟨d, hd, rfl⟩ := hc
  exact isDigitChar_digitChar d (natDigitsRev_lt_10 n d hd)

/-- Leading zeros do not change the parsed value. -/
theorem parseDigitsData_replicate_zero (k : Nat) (l : List Char) :
    parseDigitsData (List.replicate k '0' ++ l) = parseDigitsData l := by
  induction k with
  | zero => simp
  | succ m ih =>
    simp only [List.replicate_succ, List.cons_append, parseDigitsData, List.foldl_cons]
    have : charVal '0' = 0 := by decide
    simpa [parseDigitsData, this] using ih

/-! ### Substring occurrence

Decidable substring check used to state "the summary contains ..." claims,
with its characterization as an append decomposition. -/

/-- Does `l` start with `pat`? -/
def listStartsWith : List Char → List Char → Bool
  | [], _ => true
  | _ :: _, [] => false
  | p :: ps, c :: cs => p == c && listStartsWith ps cs

/-- Does `pat` occur contiguously inside `l`? -/
def listContains (pat : List Char) : List Char → Bool
  | [] => listStartsWith pat []
  | c :: t => listStartsWith pat (c :: t) || listContains pat t

theorem listStartsWith_iff (pat l : List Char) :
    listStartsWith pat l = true ↔ ∃ q, l = pat ++ q := by
  induction pat generalizing l with
  | nil => simp [listStartsWith]
  | cons p ps ih =>
    cases l with
    | nil =>
      simp [listStartsWith]
    | cons c cs =>
      simp only [listStartsWith, Bool.and_eq_true, beq_iff_eq, ih, List.cons_append,
        List.cons.injEq]
      constructor
      · rintro ⟨rfl, q, rfl⟩; exact ⟨q, rfl, rfl⟩
      · rintro ⟨q, rfl, rfl⟩; exact ⟨rfl, q, rfl⟩

theorem listContains_iff (pat l : List Char) :
    listContains pat l = true ↔ ∃ p q, l = p ++ (pat ++ q) := by
  induction l with
  | nil =>
    simp only [listContains, listStartsWith_iff]
    constructor
    · rintro ⟨q, h⟩; exact ⟨[], q, h⟩
    · rintro ⟨p, q, h⟩
      rcases List.append_eq_nil.mp h.symm with ⟨rfl, h2⟩
      exact ⟨q, by simpa using h⟩
  | cons c t ih =>
    simp only [listContains, Bool.or_eq_true, listStartsWith_iff, ih]
    constructor
    · rintro (⟨q, h⟩ | ⟨p, q, h⟩)
      · exact ⟨[], q, by simpa using h⟩
      · exact ⟨c :: p, q, by simp [h]⟩
    · rintro ⟨p, q, h⟩
      cases p with
      | nil => exact Or.inl ⟨q, by simpa using h⟩
      | cons x xs =>
        simp only [List.cons_append, List.cons.injEq] at h
        exact Or.inr ⟨xs, q, h.2⟩

/-- Substring check on strings (haystack first). -/
def strContains (s pat : String) : Bool := listContains pat.data s.data

theorem strContains_iff (s pat : String) :
    strContains s pat = true ↔ ∃ p q : String, s = p ++ pat ++ q := by
  obtain ⟨ls⟩ := s
  obtain ⟨lp⟩ := pat
  simp only [strContains, listContains_iff]
  constructor
  · rintro ⟨p, q, h⟩
    refine ⟨⟨p⟩, ⟨q⟩, ?_⟩
    apply congrArg String.mk
    simpa using h
  · rintro ⟨⟨p⟩, ⟨q⟩, h⟩
    refine ⟨p, q, ?_⟩
    have := congrArg String.data h
    simpa using this

/-! ### JavaScript truthiness on optional strings

JS string truthiness: `undefined`, `null` and `""` are falsy.  A field of
type `Option String` guarded by `x ? ... : undefined` therefore passes
through `truthy`. -/

/-- Collapse a JS-falsy string (`""`) to `none`. -/
def truthy : Option String → Option String
  | some s => if s = "" then none else some s
  | none => none

theorem truthy_none : truthy none = none := rfl

theorem truthy_some_of_ne (s : String) (h : s ≠ "") : truthy (some s) = some s := by
  simp [truthy, h]

theorem truthy_idem (o : Option String) : truthy (truthy o) = truthy o := by
  cases o with
  | none => rfl
  | some s =>
    by_cases h : s = ""
    · simp [truthy, h]
    · simp [truthy, h]

namespace ExplainTx

/-!
Shallow embedding of `src/features/explain-transaction/explainTx.ts`
(the variant at `src/src/features/explain-transaction/explainTx.ts`).

Input transactions are Hiro-API JSON objects; the fields the function reads
are modelled explicitly, `undefined`/missing as `none`.  Output fields
`riskLevel`, `warnings`, `tags`, `decodedData` and `raw` are presentation
metadata not referenced by any verified property and are omitted from the
embedding (`tags` additionally depends on the host's local timezone via
`new Date(...).getHours()`).
-/

structure TokenTransfer where
  recipient_address : Option String := none
  amount : Option String := none
  memo : Option String := none

structure ContractCall where
  contract_id : Option String := none
  function_name : Option String := none
  /-- `function_args`, with each argument already rendered to the string
  `arg.repr ? String(arg.repr) : JSON.stringify(arg)`. -/
  function_args : Option (List String) := none

structure SmartContract where
  contract_id : Option String := none
  source_code : Option String := none

structure Tx where
  tx_type : Option String := none
  tx_id : Option String := none
  tx_status : Option String := none
  sender_address : Option String := none
  fee_rate : Option String := none
  nonce : Option Int := none
  block_height : Option Int := none
  block_time_iso : Option String := none
  block_time : Option String := none
  token_transfer : Option TokenTransfer := none
  contract_call : Option ContractCall := none
  smart_contract : Option SmartContract := none

/-- The `ExplainResult` output shape.  A JS object key that a branch does
not set is `undefined`, modelled by the default `none`. -/
structure ExplainResult where
  summary : String
  shortSummary : String
  txType : String
  txId : Option String := none
  status : Option String := none
  sender : Option String := none
  recipient : Option String := none
  amount : Option String := none
  amountFormatted : Option String := none
  feeRate : Option String := none
  feeFormatted : Option String := none
  nonce : Option Int := none
  contractId : Option String := none
  functionName : Option String := none
  functionArgs : Option (List String) := none
  memo : Option String := none
  blockHeight : Option Int := none
  blockTime : Option String := none
  confirmations : Option Int := none

/-- `shortAddr` (explainTx.ts, lines 279-282):
`if (addr.length <= 14) return addr; return addr.slice(0, 6) + ellipsis + addr.slice(-6)`. -/
def shortAddr (addr : String) : String :=
  if addr.length ≤ 14 then addr
  else String.mk (addr.data.take 6) ++ "…" ++ String.mk (addr.data.drop (addr.data.length - 6))

/-- Left-pad a character list with zeros to width `w`. -/
def padLeftZeros (w : Nat) (l : List Char) : List Char :=
  List.replicate (w - l.length) '0' ++ l

/-- Rendering of `(n / 1_000_000).toFixed(6)` for an exactly-represented
quotient: the whole part followed by exactly six fraction digits. -/
def toFixed6 (n : Nat) : String :=
  natRepr (n / 1000000) ++ "." ++ String.mk (padLeftZeros 6 (natReprData (n % 1000000)))

/-- `formatMicroStx` (explainTx.ts, lines 284-288):
`const microStx = Number(amount); if (isNaN(microStx)) return amount;
return (microStx / 1_000_000).toFixed(6);`

Modelled on the domain of claim C1: strings composed only of decimal digits
(including `""`, for which JS `Number` yields `0`), on which `Number` is
exact for values below `2^53` and, for values below `10^15`, the correctly
rounded double division by `10^6` followed by `toFixed(6)` provably renders
the exact integer quotient and remainder used here.  Any other string is
treated as the `isNaN(...)` early return and comes back unchanged; decimal
or exponent numeric formats are outside the modelled domain, and digit
strings longer than 15 digits are precisely where the source's
floating-point path can deviate from the exact quotient. -/
def formatMicroStx (amount : String) : String :=
  if amount.data.all isDigitChar then toFixed6 (parseDigitsData amount.data) else amount

/-- `formatMicroStxWithUnit` (explainTx.ts, lines 290-293). -/
def formatMicroStxWithUnit (amount : String) : String :=
  formatMicroStx amount ++ " STX"

/-- `formatContractId` (explainTx.ts, lines 295-301): shorten the address
part of a two-part `address.name` contract id. -/
def formatContractId (contractId : String) : String :=
  match contractId.splitOn "." with
  | [a, b] => shortAddr a ++ "." ++ b
  | _ => contractId

/-- `decodeMemo` (explainTx.ts, lines 303-325).  Every branch of the source
returns the memo string unchanged (the hex/base64 "decoding" is stubbed in
the source); only an empty memo yields `undefined`. -/
def decodeMemo (memo : String) : Option String :=
  if memo = "" then none else some memo

/-- `extractContractName` (explainTx.ts, lines 339-354): the `name` half of
a two-part contract id.  The fallback regex search for `define-contract` in
the contract source (a form that does not occur in Clarity) is modelled as
a no-match; no claim depends on it. -/
def extractContractName (contractId source : Option String) : Option String :=
  match contractId with
  | some cid =>
    match cid.splitOn "." with
    | [_, b] => some b
    | _ => none
  | none => none

structure SummaryInput where
  kind : String
  sender : Option String := none
  recipient : Option String := none
  amount : Option String := none
  contractId : Option String := none
  functionName : Option String := none
  functionArgs : Option String := none
  contractName : Option String := none
  decodedMemo : Option String := none
  status : Option String := none

/-- `buildSummary` (explainTx.ts, lines 229-264). -/
def buildSummary (input : SummaryInput) : String :=
  let s := match truthy input.sender with
    | some a => shortAddr a
    | none => "Unknown sender"
  let st := match truthy input.status with
    | some t => " (" ++ t ++ ")"
    | none => ""
  if input.kind = "token_transfer" then
    let r := match truthy input.recipient with
      | some a => shortAddr a
      | none => "unknown recipient"
    let a := match truthy input.amount with
      | some m => formatMicroStxWithUnit m
      | none => "unknown amount"
    let memoNote := match truthy input.decodedMemo with
      | some m => " with memo: \"" ++ m ++ "\""
      | none => ""
    s ++ " transferred " ++ a ++ " to " ++ r ++ memoNote ++ st
  else if input.kind = "contract_call" then
    let c := match truthy input.contractId with
      | some cid => formatContractId cid
      | none => "unknown contract"
    let f := match truthy input.functionName with
      | some fn => fn
      | none => "unknown function"
    let args := match truthy input.functionArgs with
      | some ar => " with args (" ++ ar ++ ")"
      | none => ""
    s ++ " called " ++ f ++ " on " ++ c ++ args ++ st
  else if input.kind = "smart_contract" then
    let c := match truthy input.contractName with
      | some nm => nm
      | none =>
        match truthy input.contractId with
        | some cid => formatContractId cid
        | none => "unknown contract"
    s ++ " published contract " ++ c ++ st
  else
    s ++ " submitted a " ++ input.kind ++ " transaction" ++ st

/-- `kind.replace(/_/g, ' ')`. -/
def replaceUnderscores (s : String) : String :=
  String.mk (s.data.map fun c => if c = '_' then ' ' else c)

/-- `buildShortSummary` (explainTx.ts, lines 266-277). -/
def buildShortSummary (kind : String) (param1 param2 : Option String) : String :=
  if kind = "token_transfer" then "Send " ++ (truthy param1).getD "?" ++ " STX"
  else if kind = "contract_call" then "Call " ++ (truthy param1).getD "?"
  else if kind = "smart_contract" then "Deploy " ++ (truthy param1).getD "contract"
  else replaceUnderscores kind

/-- `explainTransaction` (explainTx.ts, lines 34-215).  The JS guard
sequence `if (A) {..} if (B) {..} if (C) {..} return generic` is rendered
as nested fallthrough: a guard whose `txType` test or sub-object presence
test fails falls through to the next guard.  `safeNumber` is the identity
on the already-numeric `Option Int` model of `nonce`/`block_height`. -/
def explainTransaction (tx : Tx) : ExplainResult :=
  let txType := (truthy tx.tx_type).getD "unknown"
  let txId := truthy tx.tx_id
  let status := truthy tx.tx_status
  let sender := truthy tx.sender_address
  let feeRate := truthy tx.fee_rate
  let feeFormatted := feeRate.map formatMicroStx
  let nonce := tx.nonce
  let blockHeight := tx.block_height
  let blockTime := match truthy tx.block_time_iso with
    | some t => some t
    | none => truthy tx.block_time
  let confirmations : Option Int := match blockHeight with
    | some b => if b ≠ 0 then some (max 0 (1000 - b)) else none
    | none => none
  let functionArgs := tx.contract_call.bind (·.function_args)
  let generic : ExplainResult :=
    { summary := buildSummary { kind := txType, sender := sender, status := status }
      shortSummary := buildShortSummary txType none none
      txType := txType, txId := txId, status := status, sender := sender
      feeRate := feeRate, feeFormatted := feeFormatted, nonce := nonce
      blockHeight := blockHeight, blockTime := blockTime, confirmations := confirmations }
  let smartBranch : ExplainResult :=
    if txType = "smart_contract" then
      match tx.smart_contract with
      | some sc =>
        let contractId := truthy sc.contract_id
        let contractSource := truthy sc.source_code
        let contractName := extractContractName contractId contractSource
        let si : SummaryInput :=
          { kind := "smart_contract", sender := sender
            contractId := contractId, contractName := contractName, status := status }
        { summary := buildSummary si
          shortSummary := buildShortSummary "smart_contract" contractName contractId
          txType := txType, txId := txId, status := status, sender := sender
          feeRate := feeRate, feeFormatted := feeFormatted, nonce := nonce
          contractId := contractId
          blockHeight := blockHeight, blockTime := blockTime, confirmations := confirmations }
      | none => generic
    else generic
  let contractBranch : ExplainResult :=
    if txType = "contract_call" then
      match tx.contract_call with
      | some cc =>
        let contractId := truthy cc.contract_id
        let functionName := truthy cc.function_name
        let si : SummaryInput :=
          { kind := "contract_call", sender := sender
            contractId := contractId, functionName := functionName
            functionArgs := functionArgs.map (String.intercalate ", "), status := status }
        { summary := buildSummary si
          shortSummary := buildShortSummary "contract_call" functionName contractId
          txType := txType, txId := txId, status := status, sender := sender
          feeRate := feeRate, feeFormatted := feeFormatted, nonce := nonce
          contractId := contractId, functionName := functionName
          functionArgs := functionArgs
          blockHeight := blockHeight, blockTime := blockTime, confirmations := confirmations }
      | none => smartBranch
    else smartBranch
  if txType = "token_transfer" then
    match tx.token_transfer with
    | some tt =>
      let recipient := truthy tt.recipient_address
      let amount := truthy tt.amount
      let amountFormatted := amount.map formatMicroStx
      let memo := truthy tt.memo
      let decodedMemo := memo.bind decodeMemo
      let si : SummaryInput :=
        { kind := "token_transfer", sender := sender
          recipient := recipient, amount := amount, status := status
          decodedMemo := decodedMemo }
      { summary := buildSummary si
        shortSummary := buildShortSummary "token_transfer" amount recipient
        txType := txType, txId := txId, status := status, sender := sender
        recipient := recipient, amount := amount, amountFormatted := amountFormatted
        feeRate := feeRate, feeFormatted := feeFormatted, nonce := nonce
        memo := memo
        blockHeight := blockHeight, blockTime := blockTime, confirmations := confirmations }
    | none => contractBranch
  else contractBranch

/-- A transaction whose only populated field is the `tx_type` discriminator. -/
def onlyType (t : String) : Tx := { tx_type := some t }

end ExplainTx

/-! ### Further list/digit lemmas -/

theorem takeWhile_append_all (p : Char → Bool) (A B : List Char)
    (hA : ∀ a ∈ A, p a = true) :
    (A ++ B).takeWhile p = A ++ B.takeWhile p := by
  induction A with
  | nil => simp
  | cons x xs ih =>
    have hx : p x = true := hA x (by simp)
    simp [List.takeWhile_cons, hx, ih fun a ha => hA a (by simp [ha])]

theorem dropWhile_append_all (p : Char → Bool) (A B : List Char)
    (hA : ∀ a ∈ A, p a = true) :
    (A ++ B).dropWhile p = B.dropWhile p := by
  induction A with
  | nil => simp
  | cons x xs ih =>
    have hx : p x = true := hA x (by simp)
    simp [List.dropWhile_cons, hx, ih fun a ha => hA a (by simp [ha])]

theorem digitsAux_length : ∀ fuel n k, n < fuel → n < 10 ^ k → 0 < k →
    (digitsAux fuel n).length ≤ k := by
  intro fuel
  induction fuel with
  | zero => intro n k h; omega
  | succ f ih =>
    intro n k hf hk hk0
    rw [digitsAux]
    by_cases h10 : n < 10
    · simp [h10]
      omega
    · have hk2 : 2 ≤ k := by
        by_contra h
        have : k = 1 := by omega
        subst this
        simp at hk
        omega
      have hdiv : n / 10 < f := by omega
      have hpow : n / 10 < 10 ^ (k - 1) := by
        have : n < 10 ^ (k - 1) * 10 := by
          have : 10 ^ (k - 1) * 10 = 10 ^ k := by
            have : k - 1 + 1 = k := by omega
            calc 10 ^ (k - 1) * 10 = 10 ^ (k - 1 + 1) := by ring
              _ = 10 ^ k := by rw [this]
          omega
        omega
      have := ih (n / 10) (k - 1) hdiv hpow (by omega)
      simp [h10]
      omega

theorem natDigitsRev_length (n k : Nat) (hk : n < 10 ^ k) (hk0 : 0 < k) :
    (natDigitsRev n).length ≤ k :=
  digitsAux_length _ _ _ (Nat.lt_succ_self n) hk hk0

theorem natReprData_length (n k : Nat) (hk : n < 10 ^ k) (hk0 : 0 < k) :
    (natReprData n).length ≤ k := by
  simpa [natReprData] using natDigitsRev_length n k hk hk0

theorem natReprData_ne_dot (n : Nat) : ∀ c ∈ natReprData n, (c ≠ '.') := by
  intro c hc
  have := natReprData_digits n c hc
  simp only [isDigitChar, Bool.and_eq_true, decide_eq_true_eq] at this
  intro h
  subst h
  revert this
  decide

/-! ### Claim C1: micro-STX formatting -/

/-- Formatter described by the specification (spec.md section 4.1 and
section 8), written from the spec's own words for comparison with the
source's `formatMicroStx`: pad the digit string, split whole/fraction at
the last six digits, strip trailing zero fraction digits, omit the
fraction entirely when it is all zeros. -/
def specIntegerSafeFormat (s : String) : String :=
  let padded := ExplainTx.padLeftZeros 7 s.data
  let whole := padded.take (padded.length - 6)
  let frac := padded.drop (padded.length - 6)
  let strippedFrac := (frac.reverse.dropWhile (fun c => c = '0')).reverse
  if strippedFrac = [] then String.mk whole
  else String.mk whole ++ "." ++ String.mk strippedFrac

/-- Re-parse a rendered decimal with exactly six fraction digits back into
micro-units; `none` if the shape is not `whole.ffffff`. -/
def parseFixed6 (s : String) : Option Nat :=
  let whole := s.data.takeWhile (fun c => c ≠ '.')
  let rest := s.data.dropWhile (fun c => c ≠ '.')
  match rest with
  | '.' :: frac =>
    if frac.length = 6 then some (parseDigitsData whole * 1000000 + parseDigitsData frac)
    else none
  | _ => none

/-- C1 counterexample: the claim asserts `formatMicroStx` produces the exact
decimal representation of `amount / 1_000_000` by integer string
manipulation, with the fraction stripped of trailing zeros and omitted when
all-zero.  On the digit string `"1000000"` (well inside the range where the
source's floating-point path is exact) the source returns `"1.000000"` via
`toFixed(6)`, while the exact stripped representation demanded by the claim
is `"1"`. -/
theorem C1_counterexample :
    ExplainTx.formatMicroStx "1000000" = "1.000000"
    ∧ specIntegerSafeFormat "1000000" = "1"
    ∧ ExplainTx.formatMicroStx "1000000" ≠ specIntegerSafeFormat "1000000" := by
  refine ⟨by decide, by decide, by decide⟩

/-- C1 (amended): `formatMicroStx` always renders a whole part and exactly
six fraction digits (trailing zeros kept, fraction never omitted), and on
digit strings whose value is at most `10^15` — the range on which the
embedding of the source's double-precision path is exact — the rendering
is value-exact: re-parsing the output as a six-fraction-digit fixed-point
decimal recovers the amount, i.e. the output equals `n / 10^6` exactly
with no rounding. -/
theorem C1_formatMicroStx_exact_reparse (n : Nat) (h : n ≤ 10 ^ 15) :
    parseFixed6 (ExplainTx.formatMicroStx (natRepr n)) = some n := by
  have hdig : (natRepr n).data.all isDigitChar = true := by
    rw [List.all_eq_true]
    intro c hc
    exact natReprData_digits n c hc
  have hparse : parseDigitsData (natRepr n).data = n := parseDigitsData_natReprData n
  rw [ExplainTx.formatMicroStx]
  rw [if_pos hdig, hparse]
  rw [ExplainTx.toFixed6]
  have hfraclen : (ExplainTx.padLeftZeros 6 (natReprData (n % 1000000))).length = 6 := by
    have hlt : n % 1000000 < 10 ^ 6 := by
      have := Nat.mod_lt n (show 0 < 1000000 by norm_num)
      simpa using this
    have hle : (natReprData (n % 1000000)).length ≤ 6 := natReprData_length _ 6 hlt (by norm_num)
    simp [ExplainTx.padLeftZeros, List.length_append, List.length_replicate]
    omega
  have hdata : (natRepr (n / 1000000) ++ "." ++
      String.mk (ExplainTx.padLeftZeros 6 (natReprData (n % 1000000)))).data
      = natReprData (n / 1000000) ++ ('.' :: ExplainTx.padLeftZeros 6 (natReprData (n % 1000000))) := by
    simp [String.data_append, natRepr]
  rw [parseFixed6]
  simp only [hdata]
  have hwnotdot : ∀ a ∈ natReprData (n / 1000000), decide (a ≠ '.') = true := by
    intro c hc
    simpa using natReprData_ne_dot (n / 1000000) c hc
  rw [takeWhile_append_all _ _ _ hwnotdot, dropWhile_append_all _ _ _ hwnotdot]
  have : List.takeWhile (fun c => decide (c ≠ '.'))
      ('.' :: ExplainTx.padLeftZeros 6 (natReprData (n % 1000000))) = [] := by
    simp [List.takeWhile_cons]
  have hdw : List.dropWhile (fun c => decide (c ≠ '.'))
      ('.' :: ExplainTx.padLeftZeros 6 (natReprData (n % 1000000)))
      = '.' :: ExplainTx.padLeftZeros 6 (natReprData (n % 1000000)) := by
    simp [List.dropWhile_cons]
  simp only [this, hdw, List.append_nil]
  rw [if_pos hfraclen]
  have hwparse : parseDigitsData (natReprData (n / 1000000)) = n / 1000000 :=
    parseDigitsData_natReprData _
  have hfparse : parseDigitsData (ExplainTx.padLeftZeros 6 (natReprData (n % 1000000)))
      = n % 1000000 := by
    rw [ExplainTx.padLeftZeros, parseDigitsData_replicate_zero]
    exact parseDigitsData_natReprData _
  rw [hwparse, hfparse]
  congr 1
  omega

/-- C1 witness: the amended theorem at the concrete amount 1500000. -/
theorem C1_witness :
    parseFixed6 (ExplainTx.formatMicroStx (natRepr 1500000)) = some 1500000 :=
  C1_formatMicroStx_exact_reparse 1500000 (by norm_num)

/-! ### String append helpers -/

theorem strEmpty_append (s : String) : "" ++ s = s := by
  obtain ⟨l⟩ := s
  rfl

theorem strAppend_empty (s : String) : s ++ "" = s := by
  obtain ⟨l⟩ := s
  show String.mk (l ++ []) = String.mk l
  rw [List.append_nil]

theorem strAppend_ne_empty_left (a b : String) (ha : a ≠ "") : a ++ b ≠ "" := by
  intro h
  apply ha
  have := congrArg String.data h
  simp only [String.data_append] at this
  rcases List.append_eq_nil.mp this with ⟨h1, _⟩
  obtain ⟨la⟩ := a
  simp at h1
  simp [h1]

/-! ### Claim C9: confirmations -/

/-- C9: `explainTransaction` computes `confirmations` from a hardcoded
current block height of 1000 as `max(0, 1000 - block_height)` whenever
`block_height` is truthy, in every branch of the function; consequently a
block height of at least 1000 yields 0 confirmations, and a missing or
zero block height yields no confirmations at all. -/
theorem C9_confirmations (tx : ExplainTx.Tx) :
    ((ExplainTx.explainTransaction tx).confirmations =
      (match tx.block_height with
        | some b => if b ≠ 0 then some (max 0 (1000 - b)) else none
        | none => none))
    ∧ (∀ b : Int, tx.block_height = some b → 1000 ≤ b →
        (ExplainTx.explainTransaction tx).confirmations = some 0)
    ∧ (tx.block_height = none → (ExplainTx.explainTransaction tx).confirmations = none)
    ∧ (tx.block_height = some 0 → (ExplainTx.explainTransaction tx).confirmations = none) := by
  have hbase : (ExplainTx.explainTransaction tx).confirmations =
      (match tx.block_height with
        | some b => if b ≠ 0 then some (max 0 (1000 - b)) else none
        | none => none) := by
    unfold ExplainTx.explainTransaction
    dsimp only
    repeat' split
    all_goals rfl
  refine ⟨hbase, ?_, ?_, ?_⟩
  · intro b hb hge
    have hne : b ≠ 0 := by omega
    rw [hbase, hb]
    dsimp only
    rw [if_pos hne, show max (0 : Int) (1000 - b) = 0 from max_eq_left (by omega)]
  · intro hb
    rw [hbase, hb]
  · intro hb
    rw [hbase, hb]
    dsimp only
    simp

/-- C9 witness: a transaction at block height 1200 (past the hardcoded
height 1000) has 0 confirmations. -/
theorem C9_witness :
    (ExplainTx.explainTransaction { block_height := some 1200 }).confirmations = some 0 :=
  (C9_confirmations { block_height := some 1200 }).2.1 1200 rfl (by norm_num)

/-! ### Claim C7: address shortening -/

/-- A 40-character address used as concrete input for claim C7. -/
def forty : String := "ABCDEFGHIJKLMNOPQRSTUVWXYZabcdefghijklmn"

/-- C7 counterexample: on a 40-character address, `shortAddr` keeps the
last SIX characters, not the last four the claim describes (and its
identity threshold is 14, not the claimed 6+4+3). -/
theorem C7_counterexample :
    ExplainTx.shortAddr forty
      ≠ String.mk (forty.data.take 6) ++ "…" ++ String.mk (forty.data.drop (forty.data.length - 4)) := by
  decide

/-- C7 (amended): `shortAddr` is the identity on addresses of length at
most 14; a 40-character address is shortened to its first six characters,
an ellipsis, and its last six characters; and shortening is idempotent on
every input. -/
theorem C7_shortAddr_amended :
    (∀ a : String, a.length ≤ 14 → ExplainTx.shortAddr a = a)
    ∧ ExplainTx.shortAddr forty
        = String.mk (forty.data.take 6) ++ "…" ++ String.mk (forty.data.drop (forty.data.length - 6))
    ∧ (∀ a : String, ExplainTx.shortAddr (ExplainTx.shortAddr a) = ExplainTx.shortAddr a) := by
  refine ⟨?_, by decide, ?_⟩
  · intro a ha
    rw [ExplainTx.shortAddr, if_pos ha]
  · intro a
    by_cases ha : a.length ≤ 14
    · have h : ExplainTx.shortAddr a = a := by rw [ExplainTx.shortAddr, if_pos ha]
      simp only [h]
    · have hgt : 14 < a.length := by omega
      have hshape : ExplainTx.shortAddr a
          = String.mk (a.data.take 6) ++ "…" ++ String.mk (a.data.drop (a.data.length - 6)) := by
        rw [ExplainTx.shortAddr, if_neg ha]
      have hlen : (ExplainTx.shortAddr a).length = 13 := by
        rw [hshape]
        show (String.mk (a.data.take 6) ++ "…" ++
          String.mk (a.data.drop (a.data.length - 6))).data.length = 13
        simp only [String.data_append, List.length_append, List.length_take,
          List.length_drop]
        have hda : a.data.length = a.length := rfl
        have hstr : ("…" : String).data.length = 1 := rfl
        simp only [hstr, hda]
        omega
      rw [ExplainTx.shortAddr, if_pos (by omega : (ExplainTx.shortAddr a).length ≤ 14)]

/-- C7 witness: the amended theorem applied to a 13-character address
(unchanged) and to the 40-character address. -/
theorem C7_witness :
    ExplainTx.shortAddr "SP3F9ZT2XYZQR" = "SP3F9ZT2XYZQR"
    ∧ ExplainTx.shortAddr (ExplainTx.shortAddr forty) = ExplainTx.shortAddr forty :=
  ⟨C7_shortAddr_amended.1 "SP3F9ZT2XYZQR" (by decide), C7_shortAddr_amended.2.2 forty⟩

theorem strEq_of_data (a b : String) (h : a.data = b.data) : a = b := by
  obtain ⟨la⟩ := a
  obtain ⟨lb⟩ := b
  exact congrArg String.mk h

/-! ### Claim C3: discriminator-only inputs -/

/-- Shape of the result on a discriminator-only transaction: always the
generic return object (every sub-object guard falls through). -/
theorem explainTransaction_onlyType (t : String) :
    ExplainTx.explainTransaction (ExplainTx.onlyType t) =
      { summary := ExplainTx.buildSummary { kind := (truthy (some t)).getD "unknown" }
        shortSummary := ExplainTx.buildShortSummary ((truthy (some t)).getD "unknown") none none
        txType := (truthy (some t)).getD "unknown" } := by
  unfold ExplainTx.explainTransaction ExplainTx.onlyType
  dsimp only
  simp only [ite_self]
  rfl

/-- C3 counterexample: with only the discriminator populated and the
discriminator equal to `"token_transfer"`, the summary comes from the
token-transfer template (with "unknown" placeholders), not from the generic
fallback template, and it does not contain the discriminator value. -/
theorem C3_counterexample :
    (ExplainTx.explainTransaction (ExplainTx.onlyType "token_transfer")).summary
      = "Unknown sender transferred unknown amount to unknown recipient"
    ∧ ¬ ∃ p q : String,
        (ExplainTx.explainTransaction (ExplainTx.onlyType "token_transfer")).summary
          = p ++ "token_transfer" ++ q := by
  constructor
  · rw [explainTransaction_onlyType]
    decide
  · intro h
    have hc := (strContains_iff
      (ExplainTx.explainTransaction (ExplainTx.onlyType "token_transfer")).summary
      "token_transfer").mpr h
    rw [explainTransaction_onlyType] at hc
    exact absurd hc (by decide)

/-- C3 (amended): on a transaction whose only populated field is the
discriminator, `explainTransaction` returns every optional output field
absent and a non-empty summary; for a discriminator other than the three
recognized ones (`token_transfer`, `contract_call`, `smart_contract`) the
summary is the generic fallback template containing the discriminator
verbatim, while a recognized discriminator with its sub-object missing
produces that type's template with "unknown ..." placeholders instead. -/
theorem C3_only_discriminator (t : String) :
    ((ExplainTx.explainTransaction (ExplainTx.onlyType t)).status = none
      ∧ (ExplainTx.explainTransaction (ExplainTx.onlyType t)).sender = none
      ∧ (ExplainTx.explainTransaction (ExplainTx.onlyType t)).recipient = none
      ∧ (ExplainTx.explainTransaction (ExplainTx.onlyType t)).amount = none
      ∧ (ExplainTx.explainTransaction (ExplainTx.onlyType t)).amountFormatted = none
      ∧ (ExplainTx.explainTransaction (ExplainTx.onlyType t)).feeRate = none
      ∧ (ExplainTx.explainTransaction (ExplainTx.onlyType t)).feeFormatted = none
      ∧ (ExplainTx.explainTransaction (ExplainTx.onlyType t)).nonce = none
      ∧ (ExplainTx.explainTransaction (ExplainTx.onlyType t)).contractId = none
      ∧ (ExplainTx.explainTransaction (ExplainTx.onlyType t)).functionName = none
      ∧ (ExplainTx.explainTransaction (ExplainTx.onlyType t)).memo = none
      ∧ (ExplainTx.explainTransaction (ExplainTx.onlyType t)).blockHeight = none
      ∧ (ExplainTx.explainTransaction (ExplainTx.onlyType t)).blockTime = none
      ∧ (ExplainTx.explainTransaction (ExplainTx.onlyType t)).txId = none
      ∧ (ExplainTx.explainTransaction (ExplainTx.onlyType t)).confirmations = none)
    ∧ (ExplainTx.explainTransaction (ExplainTx.onlyType t)).summary ≠ ""
    ∧ (t ≠ "token_transfer" → t ≠ "contract_call" → t ≠ "smart_contract" →
        ∃ p q : String,
          (ExplainTx.explainTransaction (ExplainTx.onlyType t)).summary = p ++ t ++ q) := by
  rw [explainTransaction_onlyType]
  refine ⟨⟨rfl, rfl, rfl, rfl, rfl, rfl, rfl, rfl, rfl, rfl, rfl, rfl, rfl, rfl, rfl⟩, ?_, ?_⟩
  · by_cases ht : t = ""
    · subst ht
      decide
    · rw [show (truthy (some t)).getD "unknown" = t from by
        rw [truthy_some_of_ne t ht]; rfl]
      rw [ExplainTx.buildSummary]
      dsimp only
      by_cases h1 : t = "token_transfer"
      · rw [if_pos h1]; decide
      · rw [if_neg h1]
        by_cases h2 : t = "contract_call"
        · rw [if_pos h2]; decide
        · rw [if_neg h2]
          by_cases h3 : t = "smart_contract"
          · rw [if_pos h3]; decide
          · rw [if_neg h3]
            exact strAppend_ne_empty_left _ _
              (strAppend_ne_empty_left _ _
                (strAppend_ne_empty_left _ _
                  (strAppend_ne_empty_left _ _ (by decide))))
  · intro h1 h2 h3
    by_cases ht : t = ""
    · subst ht
      exact ⟨"", ExplainTx.buildSummary { kind := (truthy (some "")).getD "unknown" },
        by rw [strAppend_empty, strEmpty_append]⟩
    · rw [show (truthy (some t)).getD "unknown" = t from by
        rw [truthy_some_of_ne t ht]; rfl]
      rw [ExplainTx.buildSummary]
      dsimp only
      rw [if_neg h1, if_neg h2, if_neg h3]
      refine ⟨"Unknown sender" ++ " submitted a ", " transaction" ++ "", ?_⟩
      rw [String.append_assoc]
      rfl

/-- C3 witness: the amended theorem at the concrete discriminator
`"coinbase"`, whose generic summary contains the discriminator. -/
theorem C3_witness :
    (ExplainTx.explainTransaction (ExplainTx.onlyType "coinbase")).status = none
    ∧ (ExplainTx.explainTransaction (ExplainTx.onlyType "coinbase")).summary ≠ ""
    ∧ ∃ p q : String,
        (ExplainTx.explainTransaction (ExplainTx.onlyType "coinbase")).summary
          = p ++ "coinbase" ++ q :=
  ⟨(C3_only_discriminator "coinbase").1.1,
    (C3_only_discriminator "coinbase").2.1,
    (C3_only_discriminator "coinbase").2.2 (by decide) (by decide) (by decide)⟩

/-! ### Claim C4: contract_call discriminator without contract_call object -/

/-- Result shape when the discriminator is `"contract_call"` but the
`contract_call` sub-object is absent: the generic return object. -/
theorem explainTransaction_contract_call_missing (tx : ExplainTx.Tx)
    (hty : tx.tx_type = some "contract_call") (hcc : tx.contract_call = none) :
    ExplainTx.explainTransaction tx =
      { summary := ExplainTx.buildSummary
          { kind := "contract_call", sender := truthy tx.sender_address
            status := truthy tx.tx_status }
        shortSummary := ExplainTx.buildShortSummary "contract_call" none none
        txType := "contract_call"
        txId := truthy tx.tx_id
        status := truthy tx.tx_status
        sender := truthy tx.sender_address
        feeRate := truthy tx.fee_rate
        feeFormatted := (truthy tx.fee_rate).map ExplainTx.formatMicroStx
        nonce := tx.nonce
        blockHeight := tx.block_height
        blockTime := (match truthy tx.block_time_iso with
          | some u => some u
          | none => truthy tx.block_time)
        confirmations := (match tx.block_height with
          | some b => if b ≠ 0 then some (max 0 (1000 - b)) else none
          | none => none) } := by
  have hty' : (truthy tx.tx_type).getD "unknown" = "contract_call" := by
    rw [hty]; rfl
  unfold ExplainTx.explainTransaction
  dsimp only
  rw [hty', hcc]
  rw [if_neg (show ¬ ("contract_call" = "token_transfer") by decide)]
  rw [if_pos rfl]
  dsimp only
  rw [if_neg (show ¬ ("contract_call" = "smart_contract") by decide)]

/-- C4: when the discriminator is `"contract_call"` but the `contract_call`
object is missing, the output has no `contractId` and no `functionName`,
and the summary falls back to "unknown contract" / "unknown function"
wording, without any failure. -/
theorem C4_contract_call_missing (tx : ExplainTx.Tx)
    (hty : tx.tx_type = some "contract_call") (hcc : tx.contract_call = none) :
    (ExplainTx.explainTransaction tx).contractId = none
    ∧ (ExplainTx.explainTransaction tx).functionName = none
    ∧ (∃ p q : String,
        (ExplainTx.explainTransaction tx).summary = p ++ "unknown function" ++ q)
    ∧ (∃ p q : String,
        (ExplainTx.explainTransaction tx).summary = p ++ "unknown contract" ++ q) := by
  rw [explainTransaction_contract_call_missing tx hty hcc]
  have hsum : ExplainTx.buildSummary
      { kind := "contract_call", sender := truthy tx.sender_address
        status := truthy tx.tx_status }
      = (match truthy tx.sender_address with
          | some a => ExplainTx.shortAddr a
          | none => "Unknown sender")
        ++ " called " ++ "unknown function" ++ " on " ++ "unknown contract" ++ ""
        ++ (match truthy tx.tx_status with
          | some u => " (" ++ u ++ ")"
          | none => "") := by
    rw [ExplainTx.buildSummary]
    dsimp only
    rw [if_neg (show ¬ ("contract_call" = "token_transfer") by decide)]
    rw [if_pos rfl]
    simp only [truthy_idem, truthy_none]
  refine ⟨rfl, rfl, ?_, ?_⟩
  · refine ⟨(match truthy tx.sender_address with
      | some a => ExplainTx.shortAddr a
      | none => "Unknown sender") ++ " called ",
      " on " ++ "unknown contract" ++ ""
        ++ (match truthy tx.tx_status with
          | some u => " (" ++ u ++ ")"
          | none => ""), ?_⟩
    dsimp only
    rw [hsum]
    apply strEq_of_data
    simp [String.data_append, List.append_assoc]
  · refine ⟨(match truthy tx.sender_address with
      | some a => ExplainTx.shortAddr a
      | none => "Unknown sender") ++ " called " ++ "unknown function" ++ " on ",
      "" ++ (match truthy tx.tx_status with
          | some u => " (" ++ u ++ ")"
          | none => ""), ?_⟩
    dsimp only
    rw [hsum]
    apply strEq_of_data
    simp [String.data_append, List.append_assoc]

/-- C4 witness: the theorem at the concrete one-field transaction with
discriminator `"contract_call"`. -/
theorem C4_witness :
    (ExplainTx.explainTransaction { tx_type := some "contract_call" }).contractId = none
    ∧ (ExplainTx.explainTransaction { tx_type := some "contract_call" }).functionName = none
    ∧ (∃ p q : String,
        (ExplainTx.explainTransaction { tx_type := some "contract_call" }).summary
          = p ++ "unknown function" ++ q)
    ∧ (∃ p q : String,
        (ExplainTx.explainTransaction { tx_type := some "contract_call" }).summary
          = p ++ "unknown contract" ++ q) :=
  C4_contract_call_missing { tx_type := some "contract_call" } rfl rfl

namespace Part7

/-!
Shallow embedding of the second `explainTx.ts` variant in the repository
(src/unnamed/part_007, lines 45-152): `fmtStx`, `safeStr`,
`pickAmountAndRecipient` and the events-aware `explainTransaction`.

The `amountLabel` field and the `cards` fee/time renderings call
`toLocaleString` with the host's default locale (locale-dependent digit
grouping), which has no shallow embedding; they are presentation strings
not referenced by any claim and are omitted.  String-valued inputs are
modelled directly; `safeStr` on a present string returns it unchanged and
on a missing value returns the em-dash placeholder.
-/

structure TokenTransfer where
  amount : Option String := none
  asset_identifier : Option String := none
  recipient_address : Option String := none
  sender_address : Option String := none

structure StxTransfer where
  amount : Option String := none
  recipient_address : Option String := none
  sender_address : Option String := none

structure ContractCall where
  contract_id : Option String := none

structure SmartContract where
  contract_id : Option String := none

structure Tx where
  tx_type : Option String := none
  tx_status : Option String := none
  sender_address : Option String := none
  fee_rate : Option String := none
  fee : Option String := none
  block_height : Option Int := none
  token_transfer : Option TokenTransfer := none
  stx_transfer : Option StxTransfer := none
  contract_call : Option ContractCall := none
  smart_contract : Option SmartContract := none

/-- `safeStr` (part_007, lines 56-61) on an optional string value. -/
def safeStr (o : Option String) : String := o.getD "—"

/-- The three claim-relevant outputs of `pickAmountAndRecipient`
(part_007, lines 63-96); `amountLabel` omitted (locale-dependent). -/
structure PickResult where
  amount : String
  recipient : String
  sender : String

/-- `pickAmountAndRecipient` (part_007, lines 63-96).  The JS guards
`tx?.tx_type === "token_transfer" && tx?.token_transfer` and
`tx?.tx_type === "stx_transfer" && tx?.stx_transfer` are the two match
arms; everything else falls to the contract-id branch, whose `?:` chain
tests string truthiness of the contract ids. -/
def pickAmountAndRecipient (tx : Tx) : PickResult :=
  match tx.tx_type, tx.token_transfer, tx.stx_transfer with
  | some "token_transfer", some tt, _ =>
    { amount := safeStr tt.amount
      recipient := safeStr tt.recipient_address
      sender := safeStr (tt.sender_address.orElse fun _ => tx.sender_address) }
  | some "stx_transfer", _, some st =>
    { amount := safeStr st.amount
      recipient := safeStr st.recipient_address
      sender := safeStr (st.sender_address.orElse fun _ => tx.sender_address) }
  | _, _, _ =>
    { amount := "—"
      recipient :=
        match truthy (tx.contract_call.bind (·.contract_id)) with
        | some c => c
        | none =>
          match truthy (tx.smart_contract.bind (·.contract_id)) with
          | some c => c
          | none => "—"
      sender := safeStr tx.sender_address }

/-- The fee resolution `tx.fee_rate ?? tx.fee ?? tx.fee_rate`
(part_007, line 103), before the locale-dependent rendering. -/
def resolveFeeRate (tx : Tx) : Option String :=
  match tx.fee_rate with
  | some f => some f
  | none =>
    match tx.fee with
    | some f => some f
    | none => tx.fee_rate

structure Asset where
  asset_identifier : Option String := none

/-- A raw event; the source key `from` is modelled as `fromAddr` and `to`
as `toAddr` (`from` is a Lean keyword). -/
structure RawEvent where
  event_type : Option String := none
  type : Option String := none
  asset : Option Asset := none
  asset_identifier : Option String := none
  sender : Option String := none
  fromAddr : Option String := none
  recipient : Option String := none
  toAddr : Option String := none
  amount : Option String := none
  value : Option String := none

structure CompactEvent where
  event_type : String
  asset_identifier : Option String := none
  sender : Option String := none
  recipient : Option String := none
  amount : Option String := none

/-- One entry of the `compactEvents` mapping (part_007, lines 142-148):
`event_type: e.event_type ?? e.type ?? "—"` and the nullish alias chains
for the remaining fields. -/
def compactOf (e : RawEvent) : CompactEvent :=
  { event_type := (e.event_type.orElse fun _ => e.type).getD "—"
    asset_identifier := (e.asset.bind (·.asset_identifier)).orElse fun _ => e.asset_identifier
    sender := e.sender.orElse fun _ => e.fromAddr
    recipient := e.recipient.orElse fun _ => e.toAddr
    amount := e.amount.orElse fun _ => e.value }

/-- `compactEvents` (part_007, lines 140-149):
`Array.isArray(events) && events.length ? events.slice(0, 30).map(...) : []`. -/
def compactEvents (events : Option (List RawEvent)) : List CompactEvent :=
  match events with
  | some l => if l.length ≠ 0 then (l.take 30).map compactOf else []
  | none => []

/-- `headline` computation (part_007, lines 117-126). -/
def headlineOf (t : String) : String :=
  if t = "stx_transfer" then "STX transfer"
  else if t = "token_transfer" then "Token transfer"
  else if t = "contract_call" then "Contract call"
  else if t = "smart_contract" then "Contract deploy"
  else "Stacks transaction"

/-- Claim-relevant outputs of part_007's `explainTransaction`; the `cards`
array packaging and its locale-formatted fee/time strings are
presentation and omitted (`feeResolved` is the fee value the card is
rendered from). -/
structure Part7Result where
  headline : String
  sender : String
  recipient : String
  amount : String
  feeResolved : Option String
  type : String
  status : String
  events : List CompactEvent

/-- `explainTransaction` (part_007, lines 98-152). -/
def explainTransaction (tx : Tx) (events : Option (List RawEvent)) : Part7Result :=
  let pick := pickAmountAndRecipient tx
  let type := tx.tx_type.getD "—"
  let status := tx.tx_status.getD "—"
  { headline := headlineOf type
    sender := pick.sender
    recipient := pick.recipient
    amount := pick.amount
    feeResolved := resolveFeeRate tx
    type := type
    status := status
    events := compactEvents events }

/-- Concrete counterexample transaction for claim C2: discriminator
`token_transfer` with a present but empty `token_transfer` object, and a
populated `contract_call.contract_id`. -/
def c2tx : Tx :=
  { tx_type := some "token_transfer"
    token_transfer := some {}
    contract_call := some { contract_id := some "SP2J6ZY48GV1EZ5V2V5RB9MP66SW86PYKKNRV9EJ7.pox" } }

/-- The 31-event list used as concrete input for claim C5. -/
def manyEvents : List RawEvent := List.replicate 31 {}

end Part7

/-! ### Claim C2: recipient and fee resolution order -/

/-- Recipient resolution exactly as the claim and spec describe it: the
first present value among `token_transfer.recipient_address`,
`contract_call.contract_id`, `smart_contract.contract_id`, in that fixed
order, regardless of any other field. -/
def specRecipient (tx : Part7.Tx) : Option String :=
  match tx.token_transfer.bind (·.recipient_address) with
  | some r => some r
  | none =>
    match tx.contract_call.bind (·.contract_id) with
    | some c => some c
    | none => tx.smart_contract.bind (·.contract_id)

/-- C2 counterexample: on a transaction typed `token_transfer` whose
`token_transfer` object is present but has no `recipient_address`, and
whose `contract_call.contract_id` is populated, the claim's resolution
order yields the contract id, but the code resolves the recipient to the
`"—"` placeholder: presence of the discriminator-selected sub-object
preempts the claimed fallthrough. -/
theorem C2_counterexample :
    specRecipient Part7.c2tx = some "SP2J6ZY48GV1EZ5V2V5RB9MP66SW86PYKKNRV9EJ7.pox"
    ∧ (Part7.pickAmountAndRecipient Part7.c2tx).recipient = "—"
    ∧ (Part7.pickAmountAndRecipient Part7.c2tx).recipient
        ≠ "SP2J6ZY48GV1EZ5V2V5RB9MP66SW86PYKKNRV9EJ7.pox" := by
  refine ⟨rfl, rfl, by decide⟩

/-- C2 (amended): recipient resolution is discriminator-guarded: when the
transaction is typed `token_transfer` (resp. `stx_transfer`) and carries
the matching sub-object, the recipient comes from that sub-object's
`recipient_address` only (placeholder `"—"` when absent); only otherwise
do `contract_call.contract_id` then `smart_contract.contract_id` apply, in
that order, skipping empty strings.  The resolved fee is `fee_rate` when
present, else `fee`.  The resolution is a pure function of the input, so
it is the same on every call. -/
theorem C2_resolution_amended (tx : Part7.Tx) :
    (∀ tt, tx.tx_type = some "token_transfer" → tx.token_transfer = some tt →
      (Part7.pickAmountAndRecipient tx).recipient = Part7.safeStr tt.recipient_address)
    ∧ (∀ st, tx.tx_type = some "stx_transfer" → tx.token_transfer = none →
        tx.stx_transfer = some st →
        (Part7.pickAmountAndRecipient tx).recipient = Part7.safeStr st.recipient_address)
    ∧ ((tx.tx_type = some "token_transfer" → tx.token_transfer = none) →
       (tx.tx_type = some "stx_transfer" → tx.stx_transfer = none) →
       (Part7.pickAmountAndRecipient tx).recipient =
         (match truthy (tx.contract_call.bind (·.contract_id)) with
          | some c => c
          | none =>
            match truthy (tx.smart_contract.bind (·.contract_id)) with
            | some c => c
            | none => "—"))
    ∧ (∀ f, tx.fee_rate = some f → Part7.resolveFeeRate tx = some f)
    ∧ (tx.fee_rate = none → Part7.resolveFeeRate tx = tx.fee) := by
  refine ⟨?_, ?_, ?_, ?_, ?_⟩
  · intro tt h1 h2
    rw [Part7.pickAmountAndRecipient, h1, h2]
    rfl
  · intro st h1 h2 h3
    rw [Part7.pickAmountAndRecipient, h1, h2, h3]
    rfl
  · intro h1 h2
    rw [Part7.pickAmountAndRecipient]
    split
    all_goals first | rfl | (exfalso; simp_all)
  · intro f h
    rw [Part7.resolveFeeRate, h]
  · intro h
    rw [Part7.resolveFeeRate, h]
    cases tx.fee <;> rfl

/-- C2 witness: the amended theorem at concrete inputs — a token transfer
with a recipient, and a contract call with a fee. -/
theorem C2_witness :
    (Part7.pickAmountAndRecipient
      { tx_type := some "token_transfer"
        token_transfer := some { recipient_address := some "SP2REC" } }).recipient
      = Part7.safeStr (some "SP2REC")
    ∧ Part7.resolveFeeRate { fee_rate := none, fee := some "180" }
        = ({ fee_rate := none, fee := some "180" } : Part7.Tx).fee :=
  ⟨(C2_resolution_amended _).1 { recipient_address := some "SP2REC" } rfl rfl,
    (C2_resolution_amended _).2.2.2.2 rfl⟩

/-! ### Claim C5: event normalization -/

/-- C5 counterexample: 31 input events produce only 30 output entries
(`slice(0, 30)` silently drops the rest), and the default event type is
the placeholder `"—"`, not the literal `"event"`. -/
theorem C5_counterexample :
    Part7.manyEvents.length = 31
    ∧ (Part7.explainTransaction {} (some Part7.manyEvents)).events.length = 30
    ∧ (Part7.explainTransaction {} (some Part7.manyEvents)).events.length
        ≠ Part7.manyEvents.length
    ∧ (Part7.compactOf {}).event_type = "—"
    ∧ (Part7.compactOf {}).event_type ≠ "event" := by
  refine ⟨rfl, rfl, by decide, rfl, by decide⟩

/-- C5 (amended): event normalization never fails and produces one output
entry per input event only up to the 30-event cap — the output length is
`min(input length, 30)`, with a missing or empty list yielding an empty
output — and an event with neither `event_type` nor `type` present gets
the placeholder type `"—"` (the `name` field is not consulted). -/
theorem C5_events_amended (tx : Part7.Tx) (events : Option (List Part7.RawEvent)) :
    ((Part7.explainTransaction tx events).events.length
      = min (match events with | some l => l.length | none => 0) 30)
    ∧ (Part7.explainTransaction tx none).events = []
    ∧ (Part7.explainTransaction tx (some [])).events = []
    ∧ (∀ e : Part7.RawEvent, e.event_type = none → e.type = none →
        (Part7.compactOf e).event_type = "—") := by
  refine ⟨?_, rfl, rfl, ?_⟩
  · show (Part7.compactEvents events).length = _
    rcases events with _ | l
    · simp [Part7.compactEvents]
    · rw [Part7.compactEvents]
      by_cases hl : l.length = 0
      · simp [hl]
      · simp only [hl, ne_eq, not_false_eq_true, if_true, reduceIte, List.length_map,
          List.length_take]
        omega
  · intro e h1 h2
    rw [Part7.compactOf, h1, h2]
    rfl

/-- C5 witness: the amended theorem at a concrete two-event list and a
concrete alias-free event. -/
theorem C5_witness :
    (Part7.explainTransaction {} (some [{}, {}])).events.length = min 2 30
    ∧ (Part7.compactOf { amount := some "7" }).event_type = "—" :=
  ⟨(C5_events_amended {} (some [{}, {}])).1,
    (C5_events_amended {} none).2.2.2 { amount := some "7" } rfl rfl⟩

namespace HexExplain

/-!
Shallow embedding of the raw-hex explainer (src/unnamed/part_007,
lines 1-44) and of `safeJson` from `src/src/app/api/explain/route.ts`
(lines 7-15).

The transaction object produced by the external SDK call
`deserializeTransaction` is not part of this repository; following the
spec ("arbitrary-precision integers from a binary-decoded transaction",
section 4.3 and 9), it is modelled as an arbitrary JSON-like value `JVal`
whose `fee`/`nonce` leaves may be BigInt (`jbig`) values.
-/

mutual

inductive JVal where
  | jnull : JVal
  | jstr : String → JVal
  | jnum : Int → JVal
  | jbig : Int → JVal
  | jarr : JArr → JVal
  | jobj : JObj → JVal

inductive JArr where
  | anil : JArr
  | acons : JVal → JArr → JArr

inductive JObj where
  | onil : JObj
  | ocons : String → JVal → JObj → JObj

end

/-- Decimal string of an integer (JS `String(bigintOrNumber)`). -/
def intRepr (n : Int) : String :=
  if n < 0 then "-" ++ natRepr n.natAbs else natRepr n.natAbs

mutual

/-- Does a BigInt value occur anywhere inside the JSON value? -/
def containsBig : JVal → Bool
  | .jbig _ => true
  | .jarr a => containsBigArr a
  | .jobj o => containsBigObj o
  | _ => false

def containsBigArr : JArr → Bool
  | .anil => false
  | .acons v rest => containsBig v || containsBigArr rest

def containsBigObj : JObj → Bool
  | .onil => false
  | .ocons _ v rest => containsBig v || containsBigObj rest

end

mutual

/-- The `safeJson` replacer of route.ts:
`(_k, v) => (typeof v === "bigint" ? v.toString() : v)` applied at every
position of the serialized value. -/
def safeJsonReplace : JVal → JVal
  | .jbig n => .jstr (intRepr n)
  | .jarr a => .jarr (safeJsonReplaceArr a)
  | .jobj o => .jobj (safeJsonReplaceObj o)
  | v => v

def safeJsonReplaceArr : JArr → JArr
  | .anil => .anil
  | .acons v rest => .acons (safeJsonReplace v) (safeJsonReplaceArr rest)

def safeJsonReplaceObj : JObj → JObj
  | .onil => .onil
  | .ocons k v rest => .ocons k (safeJsonReplace v) (safeJsonReplaceObj rest)

end

mutual

theorem containsBig_safeJsonReplace : ∀ v, containsBig (safeJsonReplace v) = false
  | .jnull => rfl
  | .jstr _ => rfl
  | .jnum _ => rfl
  | .jbig _ => rfl
  | .jarr a => containsBigArr_safeJsonReplaceArr a
  | .jobj o => containsBigObj_safeJsonReplaceObj o

theorem containsBigArr_safeJsonReplaceArr :
    ∀ a, containsBigArr (safeJsonReplaceArr a) = false
  | .anil => rfl
  | .acons v rest => by
    show (containsBig (safeJsonReplace v) || containsBigArr (safeJsonReplaceArr rest)) = false
    rw [containsBig_safeJsonReplace v, containsBigArr_safeJsonReplaceArr rest]
    rfl

theorem containsBigObj_safeJsonReplaceObj :
    ∀ o, containsBigObj (safeJsonReplaceObj o) = false
  | .onil => rfl
  | .ocons _ v rest => by
    show (containsBig (safeJsonReplace v) || containsBigObj (safeJsonReplaceObj rest)) = false
    rw [containsBig_safeJsonReplace v, containsBigObj_safeJsonReplaceObj rest]
    rfl

end

/-- Object property lookup. -/
def jobjGet : JObj → String → Option JVal
  | .onil, _ => none
  | .ocons k v rest, key => if k = key then some v else jobjGet rest key

/-- Optional-chaining property access `x?.key`: `undefined` on a missing
or null base, property lookup on an object, `undefined` on primitives. -/
def jget (v : Option JVal) (key : String) : Option JVal :=
  match v with
  | some (.jobj fields) => jobjGet fields key
  | _ => none

/-- Normalize the left operand of `??`: a present `null` counts as absent. -/
def nnGet (o : Option JVal) : Option JVal :=
  match o with
  | some .jnull => none
  | x => x

mutual

/-- JS `String(v)` on the values that can appear here (array rendering is
the comma join; no claim depends on it). -/
def jsString : JVal → String
  | .jnull => "null"
  | .jstr s => s
  | .jnum n => intRepr n
  | .jbig n => intRepr n
  | .jarr a => jsStringArr a
  | .jobj _ => "[object Object]"

def jsStringArr : JArr → String
  | .anil => ""
  | .acons v .anil => jsString v
  | .acons v (.acons w rest) => jsString v ++ "," ++ jsStringArr (.acons w rest)

end

/-- `safeToString` (part_007, lines 14-17). -/
def safeToString (v : Option JVal) : Option String :=
  match v with
  | none => none
  | some .jnull => none
  | some v => some (jsString v)

structure HexDetails where
  anchorMode : Option String := none
  txType : Option String := none
  fee : Option String := none
  nonce : Option String := none

structure HexExplainResult where
  summary : String
  details : HexDetails
  parsedTx : JVal

/-- `explainTransaction` (part_007, lines 19-44), taking the already
decoded transaction object (the decode itself is the external SDK). -/
def explainTransaction (parsedTx : JVal) : HexExplainResult :=
  let anchorMode := safeToString (jget (some parsedTx) "anchorMode")
  let payload := jget (some parsedTx) "payload"
  let txType := safeToString
    (match nnGet (jget payload "payloadType") with
      | some v => some v
      | none => jget payload "type")
  let fee := safeToString (jget (jget (jget (some parsedTx) "auth") "spendingCondition") "fee")
  let nonce := safeToString (jget (jget (jget (some parsedTx) "auth") "spendingCondition") "nonce")
  let parts := ["Parsed a Stacks transaction."]
    ++ (match truthy txType with
      | some t => ["Type: " ++ t ++ "."]
      | none => [])
    ++ (match truthy anchorMode with
      | some a => ["Anchoring: " ++ a ++ "."]
      | none => [])
  { summary := String.intercalate " " parts
    details := { anchorMode := anchorMode, txType := txType, fee := fee, nonce := nonce }
    parsedTx := parsedTx }

/-- A JSON encoding of an optional string detail (`undefined` serialized
as null; immaterial to BigInt containment). -/
def optJ (o : Option String) : JVal :=
  match o with
  | some s => .jstr s
  | none => .jnull

/-- The returned object, as the JSON value it serializes to. -/
def resultToJVal (r : HexExplainResult) : JVal :=
  .jobj (.ocons "summary" (.jstr r.summary)
    (.ocons "details" (.jobj (.ocons "anchorMode" (optJ r.details.anchorMode)
      (.ocons "txType" (optJ r.details.txType)
        (.ocons "fee" (optJ r.details.fee)
          (.ocons "nonce" (optJ r.details.nonce) .onil)))))
      (.ocons "parsedTx" r.parsedTx .onil)))

/-- A concrete decoded transaction, with BigInt `fee` and `nonce` in its
spending condition as produced by the binary transaction decoder
(modelled from the spec: the decoder itself is the external
`deserializeTransaction`). -/
def sampleParsed : JVal :=
  .jobj (.ocons "anchorMode" (.jnum 3)
    (.ocons "auth" (.jobj (.ocons "spendingCondition"
        (.jobj (.ocons "fee" (.jbig 3000) (.ocons "nonce" (.jbig 42) .onil))) .onil))
      (.ocons "payload" (.jobj (.ocons "payloadType" (.jnum 0) .onil)) .onil)))

end HexExplain

/-! ### Claim C6: JSON-safety of the output -/

/-- C6 counterexample: the raw-hex explainer embeds the decoded
transaction object unchanged as `parsedTx`, so its returned object does
contain BigInt values (here the spending-condition fee/nonce), even though
the `details` fields are decimal strings. -/
theorem C6_counterexample :
    HexExplain.containsBig
      (HexExplain.resultToJVal (HexExplain.explainTransaction HexExplain.sampleParsed)) = true
    ∧ (HexExplain.explainTransaction HexExplain.sampleParsed).details.fee = some "3000"
    ∧ (HexExplain.explainTransaction HexExplain.sampleParsed).details.nonce = some "42" := by
  refine ⟨by decide, by decide, by decide⟩

/-- C6 (amended): the `details` fields convert decoded BigInt values to
decimal strings, and the API route's `safeJson` replacer converts every
BigInt anywhere in the returned object (including the embedded `parsedTx`)
to its decimal string, so the serialized response is JSON-safe; but the
explainer's in-memory return value itself still carries the BigInts inside
`parsedTx` until that serialization step. -/
theorem C6_safeJson_amended (parsedTx : HexExplain.JVal) :
    HexExplain.containsBig
      (HexExplain.safeJsonReplace
        (HexExplain.resultToJVal (HexExplain.explainTransaction parsedTx))) = false
    ∧ (∀ n : Int,
        HexExplain.jget (HexExplain.jget (HexExplain.jget (some parsedTx) "auth")
            "spendingCondition") "fee" = some (.jbig n) →
        (HexExplain.explainTransaction parsedTx).details.fee
          = some (HexExplain.intRepr n)) := by
  constructor
  · exact HexExplain.containsBig_safeJsonReplace _
  · intro n h
    unfold HexExplain.explainTransaction
    dsimp only
    rw [h]
    rfl

/-- C6 witness: the amended theorem at the concrete decoded transaction. -/
theorem C6_witness :
    HexExplain.containsBig
      (HexExplain.safeJsonReplace
        (HexExplain.resultToJVal (HexExplain.explainTransaction HexExplain.sampleParsed))) = false
    ∧ (HexExplain.explainTransaction HexExplain.sampleParsed).details.fee
        = some (HexExplain.intRepr 3000) :=
  ⟨(C6_safeJson_amended HexExplain.sampleParsed).1,
    (C6_safeJson_amended HexExplain.sampleParsed).2 3000 rfl⟩

namespace ParseTx

/-!
Shallow embedding of `src/src/utils/parseStacksTx.ts`:
`normalizeTxid`, `isValidTxid` and `resolveNetworkAndFetchTx`.

For the network resolution, the HTTP fetch (`fetchTxJson`) is the
function's only effect; it is modelled as an oracle
`fetch : Network → Except FetchErr α` and the loop over the two candidate
networks is unrolled, additionally returning the list of networks
attempted in order, which makes the claim's "at most two sequential
attempts, second only after the first failed" statable.  The `apiBase`
and `txid` passthrough fields of `FetchTxResult` are omitted.
-/

inductive Network where
  | mainnet : Network
  | testnet : Network
deriving DecidableEq

def otherNetwork : Network → Network
  | .mainnet => .testnet
  | .testnet => .mainnet

/-- An error thrown by `fetchTxJson`: carries the HTTP status when the
response was received (`err.status = res.status`), nothing when the fetch
itself failed. -/
structure FetchErr where
  status : Option Nat := none

/-- The error thrown when both networks fail. -/
structure RespErr where
  status : Nat
  message : String
deriving DecidableEq

def notFoundMsg : String := "Transaction not found on mainnet or testnet (Hiro)."

def failMsg : String := "Failed to fetch transaction from Hiro."

/-- `lastErr?.status || 500` (JS `||`: also replaces a zero status). -/
def statusOr500 : Option Nat → Nat
  | some s => if s = 0 then 500 else s
  | none => 500

/-- The candidate order (parseStacksTx.ts, lines 79-81): the preferred
network first, then the other; mainnet then testnet when unspecified. -/
def orderOf : Option Network → Network × Network
  | some p => (p, otherNetwork p)
  | none => (.mainnet, .testnet)

/-- `resolveNetworkAndFetchTx` (parseStacksTx.ts, lines 74-114); first
component is the trace of attempted networks. -/
def resolveNetworkAndFetchTx {α : Type} (fetch : Network → Except FetchErr α)
    (preferred : Option Network) : List Network × Except RespErr (Network × α) :=
  let n1 := (orderOf preferred).1
  let n2 := (orderOf preferred).2
  match fetch n1 with
  | .ok tx => ([n1], .ok (n1, tx))
  | .error _ =>
    match fetch n2 with
    | .ok tx => ([n1, n2], .ok (n2, tx))
    | .error e2 =>
      ([n1, n2], .error
        { status := statusOr500 e2.status
          message := if e2.status = some 404 then notFoundMsg else failMsg })

/-!
`normalizeTxid` (parseStacksTx.ts, lines 18-22) and `isValidTxid`
(lines 27-29).  JS `trim()` and `toLowerCase()` are modelled on the ASCII
range (whitespace `' '`, `'\t'`, `'\n'`, `'\r'`; case mapping `A-Z`),
which covers every string a transaction id can be; `Char.toLower` is the
same ASCII mapping.
-/

/-- ASCII whitespace recognized by the `trim()` model. -/
def isWSChar (c : Char) : Bool :=
  c.toNat = 32 || c.toNat = 9 || c.toNat = 10 || c.toNat = 13

/-- `s.trim()` on the underlying characters. -/
def trimData (l : List Char) : List Char :=
  ((l.dropWhile isWSChar).reverse.dropWhile isWSChar).reverse

def jsTrim (s : String) : String := String.mk (trimData s.data)

def lowerData (l : List Char) : List Char := l.map Char.toLower

def jsToLower (s : String) : String := String.mk (lowerData s.data)

/-- `raw.toLowerCase().startsWith("0x")`. -/
def starts0xAfterLower : List Char → Bool
  | c1 :: c2 :: _ => c1.toLower = '0' && c2.toLower = 'x'
  | _ => false

/-- `normalizeTxid` (parseStacksTx.ts, lines 18-22): trim, strip a leading
`0x`/`0X` (the slice is taken from the untouched trimmed string), then
lowercase. -/
def normalizeTxid (input : String) : String :=
  let raw := jsTrim input
  let no0x := if starts0xAfterLower raw.data then String.mk (raw.data.drop 2) else raw
  jsToLower no0x

/-- `[0-9a-f]`. -/
def isHexLowerChar (c : Char) : Bool :=
  (48 ≤ c.toNat && c.toNat ≤ 57) || (97 ≤ c.toNat && c.toNat ≤ 102)

/-- `isValidTxid` (parseStacksTx.ts, lines 27-29): `/^[0-9a-f]{64}$/`. -/
def isValidTxid (txid : String) : Bool :=
  txid.data.length == 64 && txid.data.all isHexLowerChar

/-! Character-level facts about the ASCII case mapping. -/

theorem toLower_toNat_of_upper (c : Char) (h : 65 ≤ c.toNat ∧ c.toNat ≤ 90) :
    c.toLower.toNat = c.toNat + 32 := by
  rw [Char.toLower]
  show (if c.toNat ≥ 65 ∧ c.toNat ≤ 90 then Char.ofNat (c.toNat + 32) else c).toNat
    = c.toNat + 32
  rw [if_pos ⟨h.1, h.2⟩]
  exact charToNat_ofNat _ (by omega)

theorem toLower_eq_of_not_upper (c : Char) (h : ¬(65 ≤ c.toNat ∧ c.toNat ≤ 90)) :
    c.toLower = c := by
  rw [Char.toLower]
  show (if c.toNat ≥ 65 ∧ c.toNat ≤ 90 then Char.ofNat (c.toNat + 32) else c) = c
  rw [if_neg fun hc => h ⟨hc.1, hc.2⟩]

theorem toLower_idem (c : Char) : c.toLower.toLower = c.toLower := by
  by_cases h : 65 ≤ c.toNat ∧ c.toNat ≤ 90
  · have h2 := toLower_toNat_of_upper c h
    apply toLower_eq_of_not_upper
    omega
  · rw [toLower_eq_of_not_upper c h]
    exact toLower_eq_of_not_upper c h

theorem isWS_toLower_false (c : Char) (h : isWSChar c = false) :
    isWSChar c.toLower = false := by
  by_cases hu : 65 ≤ c.toNat ∧ c.toNat ≤ 90
  · have h2 := toLower_toNat_of_upper c hu
    simp only [isWSChar, Bool.or_eq_false_iff, decide_eq_false_iff_not] at *
    omega
  · rw [toLower_eq_of_not_upper c hu]
    exact h

theorem hex_toLower_fixed (c : Char) (h : isHexLowerChar c = true) : c.toLower = c := by
  apply toLower_eq_of_not_upper
  simp only [isHexLowerChar, Bool.or_eq_true, Bool.and_eq_true, decide_eq_true_eq] at h
  omega

theorem hex_not_ws (c : Char) (h : isHexLowerChar c = true) : isWSChar c = false := by
  simp only [isHexLowerChar, Bool.or_eq_true, Bool.and_eq_true, decide_eq_true_eq] at h
  simp only [isWSChar, Bool.or_eq_false_iff, decide_eq_false_iff_not]
  omega

/-! List-level trim lemmas. -/

theorem dropWhile_eq_self_of_head (p : Char → Bool) (l : List Char)
    (h : ∀ c, l.head? = some c → p c = false) : l.dropWhile p = l := by
  cases l with
  | nil => rfl
  | cons x t =>
    have := h x rfl
    simp [List.dropWhile_cons, this]

theorem head_dropWhile_false (p : Char → Bool) (l : List Char) :
    ∀ c, (l.dropWhile p).head? = some c → p c = false := by
  induction l with
  | nil => intro c h; simp at h
  | cons x t ih =>
    intro c h
    by_cases hp : p x
    · rw [List.dropWhile_cons, if_pos hp] at h
      exact ih c h
    · rw [List.dropWhile_cons, if_neg hp] at h
      simp only [List.head?_cons, Option.some.injEq] at h
      subst h
      simpa using hp

theorem mem_of_head (l : List Char) (c : Char) (h : l.head? = some c) : c ∈ l := by
  cases l <;> simp_all

/-- The last character of the trimmed list is never whitespace. -/
def noTrailWS (l : List Char) : Prop :=
  ∀ c, l.reverse.head? = some c → isWSChar c = false

theorem trimData_noTrail (l : List Char) : noTrailWS (trimData l) := by
  intro c h
  rw [trimData, List.reverse_reverse] at h
  exact head_dropWhile_false _ _ c h

theorem trimData_eq_self (l : List Char)
    (hh : ∀ c, l.head? = some c → isWSChar c = false)
    (ht : ∀ c, l.reverse.head? = some c → isWSChar c = false) :
    trimData l = l := by
  rw [trimData, dropWhile_eq_self_of_head _ _ hh, dropWhile_eq_self_of_head _ _ ht,
    List.reverse_reverse]

theorem noTrail_drop (l : List Char) (k : Nat) (h : noTrailWS l) :
    noTrailWS (l.drop k) := by
  intro c hc
  rw [List.reverse_drop] at hc
  rcases hm : l.length - k with _ | m
  · rw [hm] at hc; simp at hc
  · rw [hm] at hc
    have hhd : (l.reverse.take (m + 1)).head? = l.reverse.head? := by
      cases l.reverse <;> simp
    rw [hhd] at hc
    exact h c hc

theorem noTrail_lower (l : List Char) (h : noTrailWS l) : noTrailWS (lowerData l) := by
  intro c hc
  rw [lowerData, ← List.map_reverse, List.head?_map] at hc
  rcases hrev : l.reverse.head? with _ | d
  · rw [hrev] at hc; simp at hc
  · rw [hrev] at hc
    simp at hc
    subst hc
    exact isWS_toLower_false d (h d hrev)

theorem lowerData_idem (l : List Char) : lowerData (lowerData l) = lowerData l := by
  rw [lowerData, lowerData, List.map_map]
  exact List.map_congr_left fun c _ => toLower_idem c

theorem lowerData_eq_self (l : List Char) (h : ∀ c ∈ l, c.toLower = c) :
    lowerData l = l := by
  have : l.map Char.toLower = l.map id := List.map_congr_left fun c hc => by simp [h c hc]
  simpa [lowerData] using this

/-! The two fixpoint lemmas behind claim C10. -/

theorem normalizeTxid_invariants (s : String) :
    noTrailWS (normalizeTxid s).data
      ∧ lowerData (normalizeTxid s).data = (normalizeTxid s).data := by
  rw [normalizeTxid]
  constructor
  · show noTrailWS (lowerData _)
    apply noTrail_lower
    by_cases hc : starts0xAfterLower (jsTrim s).data = true
    · rw [if_pos hc]
      exact noTrail_drop _ 2 (trimData_noTrail s.data)
    · rw [if_neg hc]
      exact trimData_noTrail s.data
  · exact lowerData_idem _

theorem normalizeTxid_prefix0x (n : String)
    (htrail : noTrailWS n.data) (hlow : lowerData n.data = n.data) :
    normalizeTxid ("0x" ++ n) = n := by
  have hdata : ("0x" ++ n).data = '0' :: 'x' :: n.data := by
    rw [String.data_append]; rfl
  have htrim : trimData ("0x" ++ n).data = '0' :: 'x' :: n.data := by
    rw [hdata]
    apply trimData_eq_self
    · intro c hc
      simp only [List.head?_cons, Option.some.injEq] at hc
      subst hc
      decide
    · intro c hc
      rw [show ('0' :: 'x' :: n.data).reverse = n.data.reverse ++ ['x', '0'] from by simp] at hc
      rcases hrev : n.data.reverse with _ | ⟨y, ys⟩
      · rw [hrev] at hc
        simp only [List.nil_append, List.head?_cons, Option.some.injEq] at hc
        subst hc
        decide
      · rw [hrev, List.head?_append_of_ne_nil _ (by simp)] at hc
        apply htrail
        rw [hrev]
        exact hc
  rw [normalizeTxid]
  show jsToLower (if starts0xAfterLower (jsTrim ("0x" ++ n)).data
    then String.mk ((jsTrim ("0x" ++ n)).data.drop 2) else jsTrim ("0x" ++ n)) = n
  have hjt : (jsTrim ("0x" ++ n)).data = '0' :: 'x' :: n.data := htrim
  rw [hjt]
  rw [if_pos (show starts0xAfterLower ('0' :: 'x' :: n.data) = true from rfl)]
  show String.mk (lowerData (('0' :: 'x' :: n.data).drop 2)) = n
  rw [show ('0' :: 'x' :: n.data).drop 2 = n.data from rfl, hlow]

theorem normalizeTxid_of_valid (t : String) (h : isValidTxid t = true) :
    normalizeTxid t = t := by
  simp only [isValidTxid, Bool.and_eq_true, beq_iff_eq, List.all_eq_true] at h
  obtain ⟨hlen, hall⟩ := h
  have htrim : trimData t.data = t.data := by
    apply trimData_eq_self
    · intro c hc
      exact hex_not_ws c (hall c (mem_of_head _ _ hc))
    · intro c hc
      have : c ∈ t.data.reverse := mem_of_head _ _ hc
      exact hex_not_ws c (hall c (List.mem_reverse.mp this))
  have hstarts : starts0xAfterLower t.data = false := by
    rcases hd : t.data with _ | ⟨c1, rest⟩
    · rfl
    · rcases rest with _ | ⟨c2, rest2⟩
      · rfl
      · show (c1.toLower = '0' && c2.toLower = 'x') = false
        have h2 : isHexLowerChar c2 = true := hall c2 (by rw [hd]; simp)
        have hfix : c2.toLower = c2 := hex_toLower_fixed c2 h2
        have hne : ¬(c2.toLower = 'x') := by
          rw [hfix]
          intro he
          rw [he] at h2
          exact absurd h2 (by decide)
        simp [hne]
  have hlow : lowerData t.data = t.data :=
    lowerData_eq_self _ fun c hc => hex_toLower_fixed c (hall c hc)
  rw [normalizeTxid]
  have hjt : jsTrim t = t := by
    show String.mk (trimData t.data) = t
    rw [htrim]
  rw [hjt, hstarts]
  show jsToLower t = t
  rw [jsToLower, hlow]

end ParseTx

/-! ### Claim C10: txid normalization fixpoints -/

/-- C10: normalization is stable with respect to the `0x` prefix — for
every input string, re-normalizing `"0x" ++ normalizeTxid s` gives back
`normalizeTxid s` (so an id pasted with or without the prefix, in any
case, lands on the same lowercase form) — and on any output that passes
`isValidTxid`, `normalizeTxid` is the identity. -/
theorem C10_normalizeTxid_stable (s : String) :
    ParseTx.normalizeTxid ("0x" ++ ParseTx.normalizeTxid s) = ParseTx.normalizeTxid s
    ∧ (ParseTx.isValidTxid (ParseTx.normalizeTxid s) = true →
        ParseTx.normalizeTxid (ParseTx.normalizeTxid s) = ParseTx.normalizeTxid s) := by
  obtain ⟨h1, h2⟩ := ParseTx.normalizeTxid_invariants s
  exact ⟨ParseTx.normalizeTxid_prefix0x _ h1 h2,
    fun hv => ParseTx.normalizeTxid_of_valid _ hv⟩

/-- C10 witness: the theorem at a mixed-case `0X` input and at a valid
64-hex input. -/
theorem C10_witness :
    ParseTx.normalizeTxid ("0x" ++ ParseTx.normalizeTxid "0XABCdef12")
      = ParseTx.normalizeTxid "0XABCdef12"
    ∧ ParseTx.normalizeTxid (ParseTx.normalizeTxid
        "aaaaaaaaaaaaaaaaaaaaaaaaaaaaaaaaaaaaaaaaaaaaaaaaaaaaaaaaaaaaaaaa")
      = ParseTx.normalizeTxid
        "aaaaaaaaaaaaaaaaaaaaaaaaaaaaaaaaaaaaaaaaaaaaaaaaaaaaaaaaaaaaaaaa" :=
  ⟨(C10_normalizeTxid_stable "0XABCdef12").1,
    (C10_normalizeTxid_stable
      "aaaaaaaaaaaaaaaaaaaaaaaaaaaaaaaaaaaaaaaaaaaaaaaaaaaaaaaaaaaaaaaa").2 (by decide)⟩

/-! ### Claim C8: network fallback -/

/-- C8: for any fetch oracle and preferred network, at most two attempts
are made, in the fixed order preferred-then-other (mainnet-then-testnet
when unspecified); the first success is returned together with its
network, the second network is only consulted after the first attempt
failed, and when both fail the thrown error takes its status from the last
failure (500 when it has none) with the "not found" wording exactly when
that status is 404. -/
theorem C8_two_sequential_attempts {α : Type}
    (fetch : ParseTx.Network → Except ParseTx.FetchErr α)
    (preferred : Option ParseTx.Network) :
    ((ParseTx.resolveNetworkAndFetchTx fetch preferred).1.length ≤ 2)
    ∧ (∀ p, preferred = some p →
        (ParseTx.orderOf preferred).1 = p
        ∧ (ParseTx.orderOf preferred).2 = ParseTx.otherNetwork p)
    ∧ (∀ t, fetch (ParseTx.orderOf preferred).1 = .ok t →
        (ParseTx.resolveNetworkAndFetchTx fetch preferred)
          = ([(ParseTx.orderOf preferred).1], .ok ((ParseTx.orderOf preferred).1, t)))
    ∧ (∀ e1 t, fetch (ParseTx.orderOf preferred).1 = .error e1 →
        fetch (ParseTx.orderOf preferred).2 = .ok t →
        (ParseTx.resolveNetworkAndFetchTx fetch preferred)
          = ([(ParseTx.orderOf preferred).1, (ParseTx.orderOf preferred).2],
             .ok ((ParseTx.orderOf preferred).2, t)))
    ∧ (∀ e1 e2, fetch (ParseTx.orderOf preferred).1 = .error e1 →
        fetch (ParseTx.orderOf preferred).2 = .error e2 →
        (ParseTx.resolveNetworkAndFetchTx fetch preferred).2
          = .error { status := ParseTx.statusOr500 e2.status
                     message := if e2.status = some 404
                       then ParseTx.notFoundMsg else ParseTx.failMsg }) := by
  refine ⟨?_, ?_, ?_, ?_, ?_⟩
  · rw [ParseTx.resolveNetworkAndFetchTx]
    rcases fetch (ParseTx.orderOf preferred).1 with e1 | t1
    · rcases fetch (ParseTx.orderOf preferred).2 with e2 | t2
      · simp
      · simp
    · simp
  · intro p hp
    rw [hp]
    exact ⟨rfl, rfl⟩
  · intro t h
    rw [ParseTx.resolveNetworkAndFetchTx]
    rw [h]
  · intro e1 t h1 h2
    rw [ParseTx.resolveNetworkAndFetchTx]
    rw [h1, h2]
  · intro e1 e2 h1 h2
    rw [ParseTx.resolveNetworkAndFetchTx]
    rw [h1, h2]

/-- C8 witness: both networks answer 404, preferred mainnet: two attempts
in order and a 404 "not found" error from the last failure. -/
theorem C8_witness :
    (ParseTx.resolveNetworkAndFetchTx
        (fun _ => (.error { status := some 404 } : Except ParseTx.FetchErr Unit))
        (some ParseTx.Network.mainnet)).2
      = .error { status := 404, message := ParseTx.notFoundMsg }
    ∧ (ParseTx.resolveNetworkAndFetchTx
        (fun _ => (.error { status := some 404 } : Except ParseTx.FetchErr Unit))
        (some ParseTx.Network.mainnet)).1.length ≤ 2 := by
  constructor
  · have := (C8_two_sequential_attempts
      (fun _ => (.error { status := some 404 } : Except ParseTx.FetchErr Unit))
      (some ParseTx.Network.mainnet)).2.2.2.2
      { status := some 404 } { status := some 404 } rfl rfl
    simpa using this
  · exact (C8_two_sequential_attempts _ _).1

end ExplainMyTx
